import Mathlib

/-!
Verification of the Black-Scholes pricer core (pricing engine and heatmap
grid generator) against its design specification.

Modelling conventions:
* Python floats are modelled by exact rationals (ℚ).  The transcendental and
  statistical primitives used by the code (natural log, square root,
  exponential, standard-normal CDF and PDF) are abstracted as an explicit
  bundle of function parameters (`Transcendentals`): every definition below
  is a faithful translation of the source expression tree over these
  primitives, and every theorem quantifies over the bundle, so nothing
  depends on a particular numerical approximation of them.
* Python `round(x, 4)` is modelled as exact decimal rounding to 4 places
  (`round4`); tie-breaking plays no role in any statement below.
* Python exceptions are modelled with `Except String`, carrying the message
  of the `ValueError` the source raises.
-/

/-- Bundle of the transcendental and statistical primitives the source uses
(`np.log`, `np.sqrt`, `np.exp`, `norm.cdf`, `norm.pdf`).  The embedding is
parametric in these. -/
structure Transcendentals where
  log : ℚ → ℚ
  sqrt : ℚ → ℚ
  exp : ℚ → ℚ
  cdf : ℚ → ℚ
  pdf : ℚ → ℚ

/-- Rounding to 4 decimal places, modelling Python `round(x, 4)`. -/
def round4 (x : ℚ) : ℚ := (round (x * 10000) : ℤ) / 10000

/-- Container for option pricing inputs, from `OptionInputs` in
`src/models/black_scholes.py` (the spec calls it `OptionParameters`). -/
structure OptionInputs where
  stock_price : ℚ
  strike_price : ℚ
  time_to_expiry : ℚ
  volatility : ℚ
  risk_free_rate : ℚ
  dividend_yield : ℚ
  deriving DecidableEq

/-- Validated construction of `OptionInputs`, from `OptionInputs.__post_init__`:
the checks run in source order and raise the source's `ValueError` messages. -/
def mkOptionInputs (S K T vol r q : ℚ) : Except String OptionInputs :=
  if S ≤ 0 then Except.error "Stock price must be positive"
  else if K ≤ 0 then Except.error "Strike price must be positive"
  else if T ≤ 0 then Except.error "Time to expiry must be positive"
  else if vol ≤ 0 then Except.error "Volatility must be positive"
  else if q < 0 then Except.error "Dividend yield must not be negative"
  else Except.ok ⟨S, K, T, vol, r, q⟩

/-- Validity predicate matching the invariant `__post_init__` enforces. -/
def validInputs (p : OptionInputs) : Prop :=
  0 < p.stock_price ∧ 0 < p.strike_price ∧ 0 < p.time_to_expiry ∧
    0 < p.volatility ∧ 0 ≤ p.dividend_yield

instance (p : OptionInputs) : Decidable (validInputs p) := by
  unfold validInputs; infer_instance

/-- Result pair of the pricing engine, from `OptionPrices`. -/
structure OptionPrices where
  call_price : ℚ
  put_price : ℚ
  deriving DecidableEq

/-- The quantity `d1` of `BlackScholesCalculator.calculate` (line 117) and
`calculate_greeks` (line 164):
`(np.log(S / K) + (r - q + 0.5 * vol**2) * T) / (vol * np.sqrt(T))`. -/
def d1 (F : Transcendentals) (p : OptionInputs) : ℚ :=
  (F.log (p.stock_price / p.strike_price)
      + (p.risk_free_rate - p.dividend_yield + 0.5 * p.volatility ^ 2) * p.time_to_expiry)
    / (p.volatility * F.sqrt p.time_to_expiry)

/-- The quantity `d2 = d1 - vol * np.sqrt(T)` (lines 121 and 168). -/
def d2 (F : Transcendentals) (p : OptionInputs) : ℚ :=
  d1 F p - p.volatility * F.sqrt p.time_to_expiry

/-- Translation, line by line, of `BlackScholesCalculator.calculate` from
`src/models/black_scholes.py` lines 106-137. -/
def calculate (F : Transcendentals) (inputs : OptionInputs) : OptionPrices :=
  let S := inputs.stock_price
  let K := inputs.strike_price
  let T := inputs.time_to_expiry
  let r := inputs.risk_free_rate
  let q := inputs.dividend_yield
  let call_price := S * F.exp (-q * T) * F.cdf (d1 F inputs)
      - K * F.exp (-r * T) * F.cdf (d2 F inputs)
  let put_price := K * F.exp (-r * T) * F.cdf (-(d2 F inputs))
      - S * F.exp (-q * T) * F.cdf (-(d1 F inputs))
  ⟨round4 call_price, round4 put_price⟩

/-- The price formulas as the specification writes them (section 4.1):
`d1 = [ln(S/K) + (r - q + σ²/2) T] / (σ√T)`, `d2 = d1 - σ√T`,
`call = S e^(-qT) N(d1) - K e^(-rT) N(d2)`,
`put = K e^(-rT) N(-d2) - S e^(-qT) N(-d1)`, both rounded to 4 decimals. -/
def specPrice (F : Transcendentals) (p : OptionInputs) : OptionPrices :=
  let S := p.stock_price
  let K := p.strike_price
  let T := p.time_to_expiry
  let σ := p.volatility
  let r := p.risk_free_rate
  let q := p.dividend_yield
  let sd1 := (F.log (S / K) + (r - q + σ ^ 2 / 2) * T) / (σ * F.sqrt T)
  let sd2 := sd1 - σ * F.sqrt T
  ⟨round4 (S * F.exp (-q * T) * F.cdf sd1 - K * F.exp (-r * T) * F.cdf sd2),
   round4 (K * F.exp (-r * T) * F.cdf (-sd2) - S * F.exp (-q * T) * F.cdf (-sd1))⟩

/-- One side (call or put) of the Greeks dictionary. -/
structure GreekLeg where
  delta : ℚ
  gamma : ℚ
  theta : ℚ
  vega : ℚ
  rho : ℚ
  deriving DecidableEq

/-- The dictionary returned by `calculate_greeks`. -/
structure GreeksResult where
  call : GreekLeg
  put : GreekLeg
  deriving DecidableEq

/-- Translation, line by line, of `BlackScholesCalculator.calculate_greeks` from
`src/models/black_scholes.py` lines 139-216.  In particular the theta
expressions keep the source's `- r * K * np.exp(-r*T) + norm.cdf(d2)`
(respectively `+ r * K * np.exp(-r*T) + norm.cdf(-d2)`), where the
normal-CDF factor is added as a separate summand instead of multiplying
the interest term. -/
def calculate_greeks (F : Transcendentals) (inputs : OptionInputs) : GreeksResult :=
  let S := inputs.stock_price
  let K := inputs.strike_price
  let vol := inputs.volatility
  let T := inputs.time_to_expiry
  let r := inputs.risk_free_rate
  let q := inputs.dividend_yield
  let call_delta := F.exp (-q * T) * F.cdf (d1 F inputs)
  let put_delta := -F.exp (-q * T) * F.cdf (-(d1 F inputs))
  let gamma := F.exp (-q * T) * F.pdf (d1 F inputs) / (S * vol * F.sqrt T)
  let vega := S * F.exp (-q * T) * F.pdf (d1 F inputs) * F.sqrt T * 0.01
  let call_theta := (-(S * F.pdf (d1 F inputs) * vol * F.exp (-q * T) / (2 * F.sqrt T))
      - r * K * F.exp (-r * T) + F.cdf (d2 F inputs)
      + q * S * F.exp (-q * T) * F.cdf (d1 F inputs)) / 365
  let put_theta := (-(S * F.pdf (d1 F inputs) * vol * F.exp (-q * T) / (2 * F.sqrt T))
      + r * K * F.exp (-r * T) + F.cdf (-(d2 F inputs))
      - q * S * F.exp (-q * T) * F.cdf (-(d1 F inputs))) / 365
  let call_rho := K * T * F.exp (-r * T) * F.cdf (d2 F inputs) * 0.01
  let put_rho := -K * T * F.exp (-r * T) * F.cdf (-(d2 F inputs)) * 0.01
  ⟨⟨round4 call_delta, round4 gamma, round4 call_theta, round4 vega, round4 call_rho⟩,
   ⟨round4 put_delta, round4 gamma, round4 put_theta, round4 vega, round4 put_rho⟩⟩

/-- Call theta as the specification writes it (section 4.1):
`[-(S n(d1) σ e^(-qT))/(2√T) - rK e^(-rT) N(d2) + qS e^(-qT) N(d1)] / 365`,
with the spec's `d1`, `d2` (identical to the code's, see `calculate_eq_spec`). -/
def specCallTheta (F : Transcendentals) (p : OptionInputs) : ℚ :=
  let S := p.stock_price
  let K := p.strike_price
  let σ := p.volatility
  let T := p.time_to_expiry
  let r := p.risk_free_rate
  let q := p.dividend_yield
  (-(S * F.pdf (d1 F p) * σ * F.exp (-q * T)) / (2 * F.sqrt T)
      - r * K * F.exp (-r * T) * F.cdf (d2 F p)
      + q * S * F.exp (-q * T) * F.cdf (d1 F p)) / 365

/-- Put theta as the specification writes it (section 4.1):
`[-(S n(d1) σ e^(-qT))/(2√T) + rK e^(-rT) N(-d2) - qS e^(-qT) N(-d1)] / 365`. -/
def specPutTheta (F : Transcendentals) (p : OptionInputs) : ℚ :=
  let S := p.stock_price
  let K := p.strike_price
  let σ := p.volatility
  let T := p.time_to_expiry
  let r := p.risk_free_rate
  let q := p.dividend_yield
  (-(S * F.pdf (d1 F p) * σ * F.exp (-q * T)) / (2 * F.sqrt T)
      + r * K * F.exp (-r * T) * F.cdf (-(d2 F p))
      - q * S * F.exp (-q * T) * F.cdf (-(d1 F p))) / 365

/-- Heatmap grid configuration, from `HeatmapParameters` in
`src/services/heatmap_service.py` (the spec calls it `GridSpec`).  Step
counts are Python ints, modelled by ℤ. -/
structure HeatmapParameters where
  min_spot : ℚ
  max_spot : ℚ
  min_vol : ℚ
  max_vol : ℚ
  spot_steps : ℤ
  vol_steps : ℤ
  deriving DecidableEq

/-- Heatmap result, from `HeatMapData`: axes and the two price matrices
indexed `[vol_index][spot_index]`. -/
structure HeatMapData where
  spot_prices : List ℚ
  vols : List ℚ
  call_prices : List (List ℚ)
  put_prices : List (List ℚ)
  deriving DecidableEq

/-- A row of the `BlackScholesOutputs` table, from `CalculationOutput` in
`src/database/models.py` (identity and timestamp fields, which the external
store assigns, are omitted). -/
structure CalculationOutput where
  volatility_shock : ℚ
  stock_price_shock : ℚ
  option_price : ℚ
  is_call : Bool
  deriving DecidableEq

/-- Model of `np.linspace(start, stop, num)` with the default `endpoint=True`:
`num` evenly spaced samples from `start` to `stop` inclusive; a negative
`num` raises, `num = 0` gives the empty array, `num = 1` gives `[start]`. -/
def npLinspace (start stop : ℚ) (num : ℤ) : Except String (List ℚ) :=
  if num < 0 then Except.error "Number of samples must be non-negative"
  else if num = 1 then Except.ok [start]
  else Except.ok ((List.range num.toNat).map
    (fun i : ℕ => start + (i : ℚ) * (stop - start) / ((num : ℚ) - 1)))

/-- Inner loop of `HeatmapService.generate_heatmap` (lines 89-102): for one
volatility, sweep the spot axis, building fresh validated inputs per cell and
pricing each.  The second component counts completed pricing-engine calls, so
that statements about errors raised "before any pricing call" are expressible. -/
def priceRowCount (F : Transcendentals) (base : OptionInputs) (vol : ℚ) :
    List ℚ → Except String (List OptionPrices) × ℕ
  | [] => (Except.ok [], 0)
  | spot :: rest =>
    match mkOptionInputs spot base.strike_price base.time_to_expiry vol
        base.risk_free_rate base.dividend_yield with
    | Except.error e => (Except.error e, 0)
    | Except.ok shocked =>
      let p := calculate F shocked
      match priceRowCount F base vol rest with
      | (Except.ok ps, n) => (Except.ok (p :: ps), n + 1)
      | (Except.error e, n) => (Except.error e, n + 1)

/-- Outer loop of `HeatmapService.generate_heatmap` (lines 88-102): volatility
outer, spot inner; counts pricing-engine calls like `priceRowCount`. -/
def priceGridCount (F : Transcendentals) (base : OptionInputs) (spots : List ℚ) :
    List ℚ → Except String (List (List OptionPrices)) × ℕ
  | [] => (Except.ok [], 0)
  | vol :: rest =>
    match priceRowCount F base vol spots with
    | (Except.error e, n) => (Except.error e, n)
    | (Except.ok row, n) =>
      match priceGridCount F base spots rest with
      | (Except.ok rows, m) => (Except.ok (row :: rows), n + m)
      | (Except.error e, m) => (Except.error e, n + m)

/-- Model of `HeatmapService.generate_heatmap` (lines 74-107), instrumented with the
number of pricing-engine invocations performed: builds the two linspace axes,
prices every (vol, spot) cell, and splits the results into the call and put
matrices. -/
def generateHeatmapCount (F : Transcendentals) (base : OptionInputs)
    (hp : HeatmapParameters) : Except String HeatMapData × ℕ :=
  match npLinspace hp.min_spot hp.max_spot hp.spot_steps with
  | Except.error e => (Except.error e, 0)
  | Except.ok spots =>
    match npLinspace hp.min_vol hp.max_vol hp.vol_steps with
    | Except.error e => (Except.error e, 0)
    | Except.ok vols =>
      match priceGridCount F base spots vols with
      | (Except.error e, n) => (Except.error e, n)
      | (Except.ok grid, n) =>
        (Except.ok ⟨spots, vols,
            grid.map (fun row => row.map OptionPrices.call_price),
            grid.map (fun row => row.map OptionPrices.put_price)⟩, n)

/-- Model of `HeatmapService.generate_heatmap`, result only. -/
def generateHeatmap (F : Transcendentals) (base : OptionInputs)
    (hp : HeatmapParameters) : Except String HeatMapData :=
  (generateHeatmapCount F base hp).1

/-- Model of `HeatmapService.generate_outputs_for_database` (lines 110-149), translated
faithfully: it loops over `(i, vol)` and `(j, spot)` and builds the call row
from `call_prices[i, j]` with `is_call = True`; the put row repeats the
source's lines 140-143 verbatim, which also use `call_price` and
`is_call = True` (the computed `put_price` of line 133 is left unused). -/
def generateOutputsForDatabase (F : Transcendentals) (base : OptionInputs)
    (hp : HeatmapParameters) :
    Except String (List CalculationOutput × List CalculationOutput) :=
  match generateHeatmap F base hp with
  | Except.error e => Except.error e
  | Except.ok hd =>
    let cells := hd.vols.enum.flatMap (fun iv =>
      hd.spot_prices.enum.map (fun js =>
        let vol_shock := iv.2 - base.volatility
        let spot_shock := js.2 - base.stock_price
        let call_price := (hd.call_prices.getD iv.1 []).getD js.1 0
        let put_price := (hd.put_prices.getD iv.1 []).getD js.1 0
        ((⟨vol_shock, spot_shock, call_price, true⟩ : CalculationOutput),
         (⟨vol_shock, spot_shock, call_price, true⟩ : CalculationOutput))))
    Except.ok (cells.map Prod.fst, cells.map Prod.snd)

/-- Model of `HeatmapService.create_heatmap_params_from_inputs` (lines 151-178): derive
the grid bounds from the base case and the range percentages, flooring the
minimum volatility at 0.005. -/
def createHeatmapParamsFromInputs (base : OptionInputs)
    (spot_range_pct vol_range_pct : ℚ) (steps : ℤ) : HeatmapParameters :=
  let min_spot := base.stock_price * (1 - spot_range_pct)
  let max_spot := base.stock_price * (1 + spot_range_pct)
  let min_vol := base.volatility * (1 - vol_range_pct)
  let max_vol := base.volatility * (1 + vol_range_pct)
  let min_vol := max min_vol 0.005
  ⟨min_spot, max_spot, min_vol, max_vol, steps, steps⟩

/-- The shock coordinates a persisted row carries. -/
def shockPair (r : CalculationOutput) : ℚ × ℚ :=
  (r.volatility_shock, r.stock_price_shock)

instance exceptDecEq {ε α : Type} [DecidableEq ε] [DecidableEq α] :
    DecidableEq (Except ε α) := fun x y =>
  match x, y with
  | Except.ok a, Except.ok b =>
    if h : a = b then isTrue (by rw [h])
    else isFalse (fun hc => h (Except.ok.inj hc))
  | Except.error e, Except.error f =>
    if h : e = f then isTrue (by rw [h])
    else isFalse (fun hc => h (Except.error.inj hc))
  | Except.ok _, Except.error _ => isFalse (fun hc => Except.noConfusion hc)
  | Except.error _, Except.ok _ => isFalse (fun hc => Except.noConfusion hc)

/-- A concrete rational instantiation of the primitive bundle, used by the
concrete-input theorems below (log 1 = 0, sqrt 1 = 1, exp 0 = 1 hold for it,
as for the real primitives). -/
def F0 : Transcendentals :=
  ⟨fun x => x - 1, fun x => x, fun x => 1 + x, fun x => 1 / 2 + x / 4, fun _ => 2 / 5⟩

/-- C1: for every valid `OptionParameters` (and every instantiation of the
transcendental primitives), `calculate` returns exactly the specification's
call and put formulas with the specification's `d1`, `d2`, each rounded to 4
decimal places. -/
theorem calculate_eq_spec (F : Transcendentals) (p : OptionInputs)
    (h : validInputs p) : calculate F p = specPrice F p := by
  have hd : d1 F p = (F.log (p.stock_price / p.strike_price)
      + (p.risk_free_rate - p.dividend_yield + p.volatility ^ 2 / 2) * p.time_to_expiry)
      / (p.volatility * F.sqrt p.time_to_expiry) := by
    unfold d1; ring_nf
  simp only [calculate, specPrice, d2]
  rw [hd]

def pW : OptionInputs := ⟨100, 100, 1, 1 / 5, 1 / 20, 0⟩

/-- Witness for C1 at a concrete valid parameter set. -/
theorem calculate_eq_spec_witness :
    validInputs pW ∧ calculate F0 pW = specPrice F0 pW :=
  ⟨by norm_num [validInputs, pW], calculate_eq_spec F0 pW (by norm_num [validInputs, pW])⟩

def pTheta : OptionInputs := ⟨1, 1, 1, 1, 0, 0⟩

/-- C2: at the concrete input S = K = T = σ = 1, r = q = 0 (with the concrete
primitive bundle `F0`), the theta values `calculate_greeks` returns differ
from the specification's theta formulas rounded to 4 decimals: the source
adds `norm.cdf(±d2)` as a separate summand instead of multiplying the
`r·K·e^(-rT)` term by it. -/
theorem greeks_theta_deviates_from_spec :
    (calculate_greeks F0 pTheta).call.theta ≠ round4 (specCallTheta F0 pTheta) ∧
    (calculate_greeks F0 pTheta).put.theta ≠ round4 (specPutTheta F0 pTheta) := by
  constructor <;>
    norm_num [calculate_greeks, specCallTheta, specPutTheta, F0, pTheta, d1, d2, round4,
      round_eq]

/-- C9: gamma and vega are identical between the call and the put leg of the
result of `calculate_greeks`, for every parameter set and every instantiation
of the primitives. -/
theorem greeks_gamma_vega_shared (F : Transcendentals) (p : OptionInputs) :
    (calculate_greeks F p).call.gamma = (calculate_greeks F p).put.gamma ∧
    (calculate_greeks F p).call.vega = (calculate_greeks F p).put.vega := by
  constructor <;> simp only [calculate_greeks]

/-- C4: construction of `OptionParameters` fails if and only if one of
`stock_price`, `strike_price`, `time_to_expiry`, `volatility` is not strictly
positive or `dividend_yield` is negative — `risk_free_rate` is unconstrained —
and on success the constructed value holds exactly the given field values
(nothing clamped or substituted). -/
theorem mkOptionInputs_validation (S K T vol r q : ℚ) :
    ((∃ e, mkOptionInputs S K T vol r q = Except.error e) ↔
      (S ≤ 0 ∨ K ≤ 0 ∨ T ≤ 0 ∨ vol ≤ 0 ∨ q < 0)) ∧
    (¬(S ≤ 0 ∨ K ≤ 0 ∨ T ≤ 0 ∨ vol ≤ 0 ∨ q < 0) →
      mkOptionInputs S K T vol r q = Except.ok ⟨S, K, T, vol, r, q⟩) := by
  unfold mkOptionInputs
  split_ifs with h1 h2 h3 h4 h5 <;> simp_all

/-- Witness for C4: a valid parameter set is accepted unchanged. -/
theorem mkOptionInputs_validation_witness :
    mkOptionInputs 100 100 1 (1 / 5) (1 / 20) 0 =
      Except.ok ⟨100, 100, 1, 1 / 5, 1 / 20, 0⟩ :=
  (mkOptionInputs_validation 100 100 1 (1 / 5) (1 / 20) 0).2 (by norm_num)

/-- C7: `create_heatmap_params_from_inputs` returns exactly the bounds
`S·(1 ∓ pct)` and `σ·(1 ∓ pct)` with the minimum volatility floored at 0.005,
and both step counts equal to `steps`. -/
theorem createHeatmapParams_spec (base : OptionInputs) (spct vpct : ℚ) (steps : ℤ) :
    createHeatmapParamsFromInputs base spct vpct steps =
      ⟨base.stock_price * (1 - spct), base.stock_price * (1 + spct),
        max (base.volatility * (1 - vpct)) 0.005,
        base.volatility * (1 + vpct), steps, steps⟩ ∧
    0.005 ≤ (createHeatmapParamsFromInputs base spct vpct steps).min_vol := by
  refine ⟨by simp only [createHeatmapParamsFromInputs], ?_⟩
  simp only [createHeatmapParamsFromInputs]
  exact le_max_right _ _

def baseC3 : OptionInputs := ⟨100, 100, 1, 1 / 5, 1 / 20, 0⟩
def hpC3 : HeatmapParameters := ⟨90, 110, 1 / 10, 3 / 10, 1, 1⟩

/-- C3 failing input: on the 1×1 grid with base S = K = 100, T = 1, σ = 0.2,
r = 0.05, q = 0 and bounds spot ∈ [90, 110], vol ∈ [0.1, 0.3] (primitives
`F0`), both emitted rows — the call row and the put row — carry the call
price 7/16 of the single cell and `is_call = true`, although the cell's put
price is 87/16: the put row does not carry the put price with
`is_call = false` as claimed. -/
theorem generate_outputs_put_rows_carry_call_price :
    generateOutputsForDatabase F0 baseC3 hpC3 =
      Except.ok ([⟨-(1 / 10), -10, 7 / 16, true⟩], [⟨-(1 / 10), -10, 7 / 16, true⟩]) ∧
    generateHeatmap F0 baseC3 hpC3 =
      Except.ok ⟨[90], [1 / 10], [[7 / 16]], [[87 / 16]]⟩ ∧
    (7 / 16 : ℚ) ≠ 87 / 16 := by
  norm_num [generateOutputsForDatabase, generateHeatmap, generateHeatmapCount, npLinspace,
    priceGridCount, priceRowCount, mkOptionInputs, calculate, d1, d2, F0, baseC3, hpC3,
    round4, round_eq, List.enum]

theorem mkOptionInputs_ok_eq {S K T vol r q : ℚ} {p : OptionInputs}
    (h : mkOptionInputs S K T vol r q = Except.ok p) :
    p = ⟨S, K, T, vol, r, q⟩ := by
  unfold mkOptionInputs at h
  split_ifs at h <;> simp_all

theorem mkOptionInputs_err_stock {S K T vol r q : ℚ} (hS : S ≤ 0) :
    mkOptionInputs S K T vol r q = Except.error "Stock price must be positive" := by
  unfold mkOptionInputs; rw [if_pos hS]

theorem mkOptionInputs_err_vol {S K T vol r q : ℚ} (hS : 0 < S) (hK : 0 < K)
    (hT : 0 < T) (hv : vol ≤ 0) :
    mkOptionInputs S K T vol r q = Except.error "Volatility must be positive" := by
  unfold mkOptionInputs
  rw [if_neg (not_le.mpr hS), if_neg (not_le.mpr hK), if_neg (not_le.mpr hT), if_pos hv]

theorem npLinspace_ok_spec {a b : ℚ} {num : ℤ} {l : List ℚ}
    (h : npLinspace a b num = Except.ok l) :
    l = (List.range num.toNat).map
      (fun i : ℕ => a + (i : ℚ) * (b - a) / ((num : ℚ) - 1)) := by
  unfold npLinspace at h
  by_cases h1 : num < 0
  · rw [if_pos h1] at h; exact absurd h (by simp)
  · rw [if_neg h1] at h
    by_cases h2 : num = 1
    · rw [if_pos h2] at h
      simp only [Except.ok.injEq] at h
      subst h2
      rw [← h]
      norm_num [List.range_succ]
    · rw [if_neg h2] at h
      simp only [Except.ok.injEq] at h
      exact h.symm

theorem npLinspace_ok_length {a b : ℚ} {num : ℤ} {l : List ℚ}
    (h : npLinspace a b num = Except.ok l) : l.length = num.toNat := by
  rw [npLinspace_ok_spec h]; simp

theorem npLinspace_min_mem {a b : ℚ} {num : ℤ} {l : List ℚ}
    (h : npLinspace a b num = Except.ok l) (h1 : 1 ≤ num) : a ∈ l := by
  rw [npLinspace_ok_spec h]
  refine List.mem_map.mpr ⟨0, ?_, by simp⟩
  rw [List.mem_range]
  omega

theorem npLinspace_max_mem {a b : ℚ} {num : ℤ} {l : List ℚ}
    (h : npLinspace a b num = Except.ok l) (h2 : 2 ≤ num) : b ∈ l := by
  rw [npLinspace_ok_spec h]
  refine List.mem_map.mpr ⟨num.toNat - 1, ?_, ?_⟩
  · rw [List.mem_range]; omega
  · have h3 : 1 ≤ num.toNat := by omega
    have h4 : (num.toNat : ℚ) = (num : ℚ) := by
      have h5 : (num.toNat : ℤ) = num := Int.toNat_of_nonneg (by omega)
      exact_mod_cast h5
    have h6 : ((num.toNat - 1 : ℕ) : ℚ) = (num : ℚ) - 1 := by
      rw [Nat.cast_sub h3, h4, Nat.cast_one]
    have hne : (num : ℚ) - 1 ≠ 0 := by
      have h7 : (2 : ℚ) ≤ (num : ℚ) := by exact_mod_cast h2
      intro hc
      nlinarith
    rw [h6, mul_comm, mul_div_assoc, div_self hne, mul_one]
    ring

theorem npLinspace_nonneg_ok (a b : ℚ) {num : ℤ} (h : 0 ≤ num) :
    ∃ l, npLinspace a b num = Except.ok l := by
  unfold npLinspace
  split_ifs with h1 h2
  · exact absurd h1 (not_lt.mpr h)
  · exact ⟨_, rfl⟩
  · exact ⟨_, rfl⟩

theorem npLinspace_neg_err (a b : ℚ) {num : ℤ} (h : num < 0) :
    npLinspace a b num = Except.error "Number of samples must be non-negative" := by
  unfold npLinspace; rw [if_pos h]

theorem npLinspace_pos_cons (a b : ℚ) {num : ℤ} (h : 1 ≤ num) :
    ∃ rest, npLinspace a b num = Except.ok (a :: rest) := by
  have h0 : ¬ num < 0 := by omega
  unfold npLinspace
  rw [if_neg h0]
  by_cases h1 : num = 1
  · rw [if_pos h1]; exact ⟨[], rfl⟩
  · rw [if_neg h1]
    have h2 : num.toNat = (num.toNat - 1) + 1 := by omega
    rw [h2, List.range_succ_eq_map]
    refine ⟨((List.range (num.toNat - 1)).map Nat.succ).map
      (fun i : ℕ => a + (i : ℚ) * (b - a) / ((num : ℚ) - 1)), ?_⟩
    simp

theorem priceRowCount_ok (F : Transcendentals) (base : OptionInputs) (vol : ℚ)
    (spots : List ℚ) :
    ∀ (row : List OptionPrices) (n : ℕ),
      priceRowCount F base vol spots = (Except.ok row, n) →
      row = spots.map (fun spot => calculate F
        ⟨spot, base.strike_price, base.time_to_expiry, vol,
          base.risk_free_rate, base.dividend_yield⟩) := by
  induction spots with
  | nil =>
    intro row n h
    simp only [priceRowCount, Prod.mk.injEq, Except.ok.injEq] at h
    simp [← h.1]
  | cons spot rest ih =>
    intro row n h
    rw [priceRowCount] at h
    split at h
    · simp at h
    · rename_i shocked hmk
      split at h
      · rename_i ps cnt hrec
        simp only [Prod.mk.injEq, Except.ok.injEq] at h
        obtain ⟨h1, -⟩ := h
        subst h1
        rw [mkOptionInputs_ok_eq hmk]
        simp [ih ps cnt hrec]
      · simp at h

theorem priceGridCount_ok (F : Transcendentals) (base : OptionInputs) (spots : List ℚ)
    (vols : List ℚ) :
    ∀ (grid : List (List OptionPrices)) (n : ℕ),
      priceGridCount F base spots vols = (Except.ok grid, n) →
      grid = vols.map (fun vol => spots.map (fun spot => calculate F
        ⟨spot, base.strike_price, base.time_to_expiry, vol,
          base.risk_free_rate, base.dividend_yield⟩)) := by
  induction vols with
  | nil =>
    intro grid n h
    simp only [priceGridCount, Prod.mk.injEq, Except.ok.injEq] at h
    simp [← h.1]
  | cons vol rest ih =>
    intro grid n h
    rw [priceGridCount] at h
    split at h
    · simp at h
    · rename_i row cnt hrow
      split at h
      · rename_i rows cnt2 hrec
        simp only [Prod.mk.injEq, Except.ok.injEq] at h
        obtain ⟨h1, -⟩ := h
        subst h1
        rw [priceRowCount_ok F base vol spots row cnt hrow]
        simp [ih rows cnt2 hrec]
      · simp at h

theorem priceGridCount_empty_spots (F : Transcendentals) (base : OptionInputs)
    (vols : List ℚ) :
    priceGridCount F base [] vols = (Except.ok (vols.map fun _ => []), 0) := by
  induction vols with
  | nil => rfl
  | cons v t ih => simp [priceGridCount, priceRowCount, ih]

theorem generateHeatmap_ok_spec (F : Transcendentals) (base : OptionInputs)
    (hp : HeatmapParameters) (hd : HeatMapData)
    (h : generateHeatmap F base hp = Except.ok hd) :
    npLinspace hp.min_spot hp.max_spot hp.spot_steps = Except.ok hd.spot_prices ∧
    npLinspace hp.min_vol hp.max_vol hp.vol_steps = Except.ok hd.vols ∧
    hd.call_prices = hd.vols.map (fun vol => hd.spot_prices.map (fun spot =>
      (calculate F ⟨spot, base.strike_price, base.time_to_expiry, vol,
        base.risk_free_rate, base.dividend_yield⟩).call_price)) ∧
    hd.put_prices = hd.vols.map (fun vol => hd.spot_prices.map (fun spot =>
      (calculate F ⟨spot, base.strike_price, base.time_to_expiry, vol,
        base.risk_free_rate, base.dividend_yield⟩).put_price)) := by
  unfold generateHeatmap generateHeatmapCount at h
  split at h
  · simp at h
  · rename_i spots hspots
    split at h
    · simp at h
    · rename_i vols hvols
      split at h
      · simp at h
      · rename_i grid n hgrid
        simp only [Except.ok.injEq] at h
        subst h
        have hg := priceGridCount_ok F base spots vols grid n hgrid
        subst hg
        refine ⟨hspots, hvols, ?_, ?_⟩ <;>
          simp [List.map_map, Function.comp]

/-- C5 (amended): whenever the grid generator succeeds, each axis is exactly
the linspace sequence `v_i = min + i·(max − min)/(steps − 1)` of length
`steps` (so the minimum bound is always the first sample and, when
`steps ≥ 2`, the maximum bound is included; for `steps = 1` the axis is the
single value `min` and the maximum is not sampled), and the price matrices,
indexed `[vol_index][underlying_index]`, hold exactly the call/put prices of
a freshly constructed parameter set keeping the base case's strike,
time-to-expiry, risk-free rate and dividend yield and substituting the swept
spot and volatility. -/
theorem generateHeatmap_grid_spec (F : Transcendentals) (base : OptionInputs)
    (hp : HeatmapParameters) (hd : HeatMapData)
    (h : generateHeatmap F base hp = Except.ok hd) :
    hd.spot_prices.length = hp.spot_steps.toNat ∧
    hd.vols.length = hp.vol_steps.toNat ∧
    hd.spot_prices = (List.range hp.spot_steps.toNat).map
      (fun j : ℕ => hp.min_spot + (j : ℚ) * (hp.max_spot - hp.min_spot)
        / ((hp.spot_steps : ℚ) - 1)) ∧
    hd.vols = (List.range hp.vol_steps.toNat).map
      (fun i : ℕ => hp.min_vol + (i : ℚ) * (hp.max_vol - hp.min_vol)
        / ((hp.vol_steps : ℚ) - 1)) ∧
    (1 ≤ hp.spot_steps → hp.min_spot ∈ hd.spot_prices) ∧
    (2 ≤ hp.spot_steps → hp.max_spot ∈ hd.spot_prices) ∧
    (1 ≤ hp.vol_steps → hp.min_vol ∈ hd.vols) ∧
    (2 ≤ hp.vol_steps → hp.max_vol ∈ hd.vols) ∧
    hd.call_prices = hd.vols.map (fun vol => hd.spot_prices.map (fun spot =>
      (calculate F ⟨spot, base.strike_price, base.time_to_expiry, vol,
        base.risk_free_rate, base.dividend_yield⟩).call_price)) ∧
    hd.put_prices = hd.vols.map (fun vol => hd.spot_prices.map (fun spot =>
      (calculate F ⟨spot, base.strike_price, base.time_to_expiry, vol,
        base.risk_free_rate, base.dividend_yield⟩).put_price)) := by
  obtain ⟨hs, hv, hc, hput⟩ := generateHeatmap_ok_spec F base hp hd h
  exact ⟨npLinspace_ok_length hs, npLinspace_ok_length hv,
    npLinspace_ok_spec hs, npLinspace_ok_spec hv,
    fun h1 => npLinspace_min_mem hs h1, fun h2 => npLinspace_max_mem hs h2,
    fun h1 => npLinspace_min_mem hv h1, fun h2 => npLinspace_max_mem hv h2,
    hc, hput⟩

def wHd : HeatMapData := ⟨[90], [1 / 10], [[7 / 16]], [[87 / 16]]⟩

/-- Witness for C5 at the concrete 1×1 grid of `baseC3`, `hpC3`. -/
theorem generateHeatmap_grid_spec_witness :
    generateHeatmap F0 baseC3 hpC3 = Except.ok wHd ∧
    wHd.spot_prices.length = hpC3.spot_steps.toNat := by
  have hEval : generateHeatmap F0 baseC3 hpC3 = Except.ok wHd := by
    norm_num [generateHeatmap, generateHeatmapCount, npLinspace, priceGridCount,
      priceRowCount, mkOptionInputs, calculate, d1, d2, F0, baseC3, hpC3, wHd,
      round4, round_eq]
  exact ⟨hEval, (generateHeatmap_grid_spec F0 baseC3 hpC3 wHd hEval).1⟩

def baseC5 : OptionInputs := ⟨100, 100, 1, 1 / 2, 0, 0⟩
def hpC5 : HeatmapParameters := ⟨100, 200, 1 / 2, 1, 1, 1⟩

/-- C5 counterexample: a grid spec with spot_steps = 1 (≥ 1) and spot bounds
[100, 200]; the generated spot axis is the single value [100], so the upper
bound max_spot = 200 is not included, contradicting "underlying_steps evenly
spaced values from min_underlying to max_underlying inclusive". -/
theorem generateHeatmap_steps_one_misses_max :
    hpC5.spot_steps = 1 ∧ hpC5.max_spot = 200 ∧
    (generateHeatmap F0 baseC5 hpC5).toOption.map HeatMapData.spot_prices =
      some [100] ∧
    ¬ ((200 : ℚ) ∈ ([100] : List ℚ)) := by
  refine ⟨by norm_num [hpC5], by norm_num [hpC5], ?_, by norm_num⟩
  norm_num [generateHeatmap, generateHeatmapCount, npLinspace, priceGridCount,
    priceRowCount, mkOptionInputs, calculate, d1, d2, F0, baseC5, hpC5, round4, round_eq,
    Except.toOption]

/-- C6 (amended): with a negative step count the generator raises (numpy
linspace rejects negative sample counts) having made no pricing call; with a
zero step count it raises nothing at all and returns an empty grid, again with
no pricing call; with steps ≥ 1 and a non-positive minimum spot bound — and
likewise a non-positive minimum volatility bound under a valid base strike and
expiry — the parameter-validation error is raised at the first grid cell,
before any pricing-engine call (the second component of
`generateHeatmapCount` counts completed pricing calls). -/
theorem generateHeatmap_error_behavior (F : Transcendentals) (base : OptionInputs)
    (hp : HeatmapParameters) :
    ((hp.spot_steps < 0 ∨ hp.vol_steps < 0) →
      ∃ e, generateHeatmapCount F base hp = (Except.error e, 0)) ∧
    ((0 ≤ hp.spot_steps ∧ 0 ≤ hp.vol_steps ∧
        (hp.spot_steps = 0 ∨ hp.vol_steps = 0)) →
      ∃ hd, generateHeatmapCount F base hp = (Except.ok hd, 0)) ∧
    (1 ≤ hp.spot_steps → 1 ≤ hp.vol_steps → hp.min_spot ≤ 0 →
      generateHeatmapCount F base hp =
        (Except.error "Stock price must be positive", 0)) ∧
    (1 ≤ hp.spot_steps → 1 ≤ hp.vol_steps → 0 < hp.min_spot → hp.min_vol ≤ 0 →
      0 < base.strike_price → 0 < base.time_to_expiry →
      generateHeatmapCount F base hp =
        (Except.error "Volatility must be positive", 0)) := by
  refine ⟨?_, ?_, ?_, ?_⟩
  · rintro (h1 | h1)
    · refine ⟨"Number of samples must be non-negative", ?_⟩
      simp [generateHeatmapCount, npLinspace_neg_err _ _ h1]
    · by_cases h2 : hp.spot_steps < 0
      · refine ⟨"Number of samples must be non-negative", ?_⟩
        simp [generateHeatmapCount, npLinspace_neg_err _ _ h2]
      · obtain ⟨ls, hls⟩ := npLinspace_nonneg_ok hp.min_spot hp.max_spot
          (show (0 : ℤ) ≤ hp.spot_steps by omega)
        refine ⟨"Number of samples must be non-negative", ?_⟩
        simp [generateHeatmapCount, hls, npLinspace_neg_err _ _ h1]
  · rintro ⟨h0s, h0v, h1 | h1⟩
    · obtain ⟨ls, hls⟩ := npLinspace_nonneg_ok hp.min_spot hp.max_spot h0s
      obtain ⟨lv, hlv⟩ := npLinspace_nonneg_ok hp.min_vol hp.max_vol h0v
      have hsnil : ls = [] := by
        have h2 := npLinspace_ok_spec hls
        rw [h1] at h2
        simpa using h2
      subst hsnil
      refine ⟨⟨[], lv, lv.map (fun _ => []), lv.map (fun _ => [])⟩, ?_⟩
      simp [generateHeatmapCount, hls, hlv, priceGridCount_empty_spots]
    · obtain ⟨ls, hls⟩ := npLinspace_nonneg_ok hp.min_spot hp.max_spot h0s
      obtain ⟨lv, hlv⟩ := npLinspace_nonneg_ok hp.min_vol hp.max_vol h0v
      have hvnil : lv = [] := by
        have h2 := npLinspace_ok_spec hlv
        rw [h1] at h2
        simpa using h2
      subst hvnil
      refine ⟨⟨ls, [], [], []⟩, ?_⟩
      simp [generateHeatmapCount, hls, hlv, priceGridCount]
  · intro h1s h1v hmin
    obtain ⟨rs, hs⟩ := npLinspace_pos_cons hp.min_spot hp.max_spot h1s
    obtain ⟨rv, hv⟩ := npLinspace_pos_cons hp.min_vol hp.max_vol h1v
    simp [generateHeatmapCount, hs, hv, priceGridCount, priceRowCount,
      mkOptionInputs_err_stock hmin]
  · intro h1s h1v hmin hvol hK hT
    obtain ⟨rs, hs⟩ := npLinspace_pos_cons hp.min_spot hp.max_spot h1s
    obtain ⟨rv, hv⟩ := npLinspace_pos_cons hp.min_vol hp.max_vol h1v
    simp [generateHeatmapCount, hs, hv, priceGridCount, priceRowCount,
      mkOptionInputs_err_vol hmin hK hT hvol]

def baseC6 : OptionInputs := ⟨100, 100, 1, 1 / 5, 0, 0⟩
def hpC6 : HeatmapParameters := ⟨90, 110, 1 / 10, 3 / 10, 0, 0⟩

/-- C6 counterexample: with steps = 0 — which the claim's `steps < 1` covers —
the generator raises no configuration error at all: it returns an empty grid
successfully (and makes zero pricing calls). -/
theorem generateHeatmap_steps_zero_no_error :
    hpC6.spot_steps = 0 ∧ hpC6.vol_steps = 0 ∧
    generateHeatmapCount F0 baseC6 hpC6 =
      (Except.ok ⟨[], [], [], []⟩, 0) := by
  refine ⟨rfl, rfl, ?_⟩
  norm_num [generateHeatmapCount, npLinspace, priceGridCount, hpC6, baseC6]

def hpNeg : HeatmapParameters := ⟨90, 110, 1 / 10, 3 / 10, -1, 5⟩

/-- Witness for C6: a negative step count produces an error with zero pricing
calls. -/
theorem generateHeatmap_error_behavior_witness :
    ∃ e, generateHeatmapCount F0 baseC6 hpNeg = (Except.error e, 0) :=
  (generateHeatmap_error_behavior F0 baseC6 hpNeg).1 (Or.inl (by norm_num [hpNeg]))

theorem flatMap_length_const {α β : Type} (l : List α) (f : α → List β) (k : ℕ)
    (hf : ∀ a ∈ l, (f a).length = k) : (l.flatMap f).length = l.length * k := by
  induction l with
  | nil => simp
  | cons a t ih =>
    rw [List.flatMap_cons, List.length_append, hf a (List.mem_cons_self a t),
      ih (fun x hx => hf x (List.mem_cons_of_mem a hx)), List.length_cons]
    ring

theorem flatMap_congr {α β : Type} {l : List α} {f g : α → List β}
    (h : ∀ a ∈ l, f a = g a) : l.flatMap f = l.flatMap g := by
  induction l with
  | nil => rfl
  | cons a t ih =>
    rw [List.flatMap_cons, List.flatMap_cons, h a (List.mem_cons_self a t),
      ih (fun x hx => h x (List.mem_cons_of_mem a hx))]

theorem enum_map_eq {α β : Type} (l : List α) (f : α → β) :
    (l.enum.map fun p => f p.2) = l.map f := by
  have h1 : (l.enum.map Prod.snd).map f = l.enum.map fun p => f p.2 := by
    rw [List.map_map]; rfl
  rw [← h1, List.enum_map_snd]

theorem enum_flatMap_eq {α β : Type} (l : List α) (f : α → List β) :
    (l.enum.flatMap fun p => f p.2) = l.flatMap f := by
  have h1 : (l.enum.map Prod.snd).flatMap f = l.enum.flatMap fun p => f p.2 := by
    rw [List.flatMap_map]
  rw [← h1, List.enum_map_snd]

theorem generateOutputs_ok_spec (F : Transcendentals) (base : OptionInputs)
    (hp : HeatmapParameters) (calls puts : List CalculationOutput) (hd : HeatMapData)
    (hh : generateHeatmap F base hp = Except.ok hd)
    (h : generateOutputsForDatabase F base hp = Except.ok (calls, puts)) :
    puts = calls ∧
    calls.map shockPair = hd.vols.flatMap (fun vol => hd.spot_prices.map (fun spot =>
      (vol - base.volatility, spot - base.stock_price))) ∧
    calls.length = hd.vols.length * hd.spot_prices.length := by
  have hshock : (hd.vols.enum.flatMap fun a => hd.spot_prices.enum.map
        (fun x : ℕ × ℚ => (a.2 - base.volatility, x.2 - base.stock_price)))
      = hd.vols.flatMap (fun vol => hd.spot_prices.map (fun spot =>
          (vol - base.volatility, spot - base.stock_price))) := by
    have hinner : ∀ a : ℕ × ℚ, (hd.spot_prices.enum.map
        (fun x : ℕ × ℚ => (a.2 - base.volatility, x.2 - base.stock_price)))
        = hd.spot_prices.map (fun spot =>
            (a.2 - base.volatility, spot - base.stock_price)) := fun a =>
      enum_map_eq hd.spot_prices
        (fun spot => (a.2 - base.volatility, spot - base.stock_price))
    rw [flatMap_congr (fun a _ => hinner a)]
    exact enum_flatMap_eq hd.vols (fun v => hd.spot_prices.map
      (fun spot => (v - base.volatility, spot - base.stock_price)))
  unfold generateOutputsForDatabase at h
  rw [hh] at h
  simp only [Except.ok.injEq, Prod.mk.injEq] at h
  obtain ⟨hc, hpu⟩ := h
  subst hc
  subst hpu
  refine ⟨?_, ?_, ?_⟩
  · simp only [List.map_flatMap, List.map_map, Function.comp_def]
  · simp only [List.map_flatMap, List.map_map, Function.comp_def, shockPair]
    exact hshock
  · rw [List.length_map, flatMap_length_const _ _ hd.spot_prices.enum.length
      (fun a ha => by rw [List.length_map]), List.enum_length, List.enum_length]

/-- C8: whenever `generate_outputs_for_database` succeeds, it returns
`vol_steps × spot_steps` call rows plus as many put rows — 2 × steps² rows in
total — and, in row-major order (volatility outer, spot inner), every row
carries the shock coordinates of its grid cell: grid volatility minus the
base volatility and grid spot price minus the base spot price. -/
theorem generateOutputs_row_count_and_shocks (F : Transcendentals)
    (base : OptionInputs) (hp : HeatmapParameters)
    (calls puts : List CalculationOutput) (hd : HeatMapData)
    (hh : generateHeatmap F base hp = Except.ok hd)
    (h : generateOutputsForDatabase F base hp = Except.ok (calls, puts)) :
    calls.length + puts.length = 2 * (hp.vol_steps.toNat * hp.spot_steps.toNat) ∧
    calls.map shockPair = hd.vols.flatMap (fun vol => hd.spot_prices.map (fun spot =>
      (vol - base.volatility, spot - base.stock_price))) ∧
    puts.map shockPair = hd.vols.flatMap (fun vol => hd.spot_prices.map (fun spot =>
      (vol - base.volatility, spot - base.stock_price))) := by
  obtain ⟨hpc, hsh, hlen⟩ := generateOutputs_ok_spec F base hp calls puts hd hh h
  obtain ⟨hs, hv, -, -⟩ := generateHeatmap_ok_spec F base hp hd hh
  have h1 := npLinspace_ok_length hs
  have h2 := npLinspace_ok_length hv
  subst hpc
  refine ⟨?_, hsh, hsh⟩
  rw [hlen, h1, h2]
  ring

def wRows : List CalculationOutput := [⟨-(1 / 10), -10, 7 / 16, true⟩]

/-- Witness for C8 at the concrete 1×1 grid of `baseC3`, `hpC3`: one call row
and one put row, 2 = 2 × (1 × 1) rows in total. -/
theorem generateOutputs_row_count_and_shocks_witness :
    generateOutputsForDatabase F0 baseC3 hpC3 = Except.ok (wRows, wRows) ∧
    wRows.length + wRows.length = 2 * (hpC3.vol_steps.toNat * hpC3.spot_steps.toNat) := by
  have hOut : generateOutputsForDatabase F0 baseC3 hpC3 = Except.ok (wRows, wRows) := by
    norm_num [generateOutputsForDatabase, generateHeatmap, generateHeatmapCount,
      npLinspace, priceGridCount, priceRowCount, mkOptionInputs, calculate, d1, d2,
      F0, baseC3, hpC3, round4, round_eq, List.enum, wRows]
  have hHd : generateHeatmap F0 baseC3 hpC3 = Except.ok wHd := by
    norm_num [generateHeatmap, generateHeatmapCount, npLinspace, priceGridCount,
      priceRowCount, mkOptionInputs, calculate, d1, d2, F0, baseC3, hpC3, wHd,
      round4, round_eq]
  exact ⟨hOut, (generateOutputs_row_count_and_shocks F0 baseC3 hpC3 wRows wRows wHd
    hHd hOut).1⟩

/-- C10: whenever `generate_outputs_for_database` succeeds, the two returned
row lists have equal length, the k-th call row and the k-th put row carry
identical shock coordinates for every index k, and the common shock sequence
is exactly the grid cells in row-major order (volatility outer loop, spot
inner loop). -/
theorem generateOutputs_rows_aligned (F : Transcendentals) (base : OptionInputs)
    (hp : HeatmapParameters) (calls puts : List CalculationOutput) (hd : HeatMapData)
    (hh : generateHeatmap F base hp = Except.ok hd)
    (h : generateOutputsForDatabase F base hp = Except.ok (calls, puts)) :
    calls.length = puts.length ∧
    (∀ k : ℕ, calls[k]?.map shockPair = puts[k]?.map shockPair) ∧
    calls.map shockPair = hd.vols.flatMap (fun vol => hd.spot_prices.map (fun spot =>
      (vol - base.volatility, spot - base.stock_price))) := by
  obtain ⟨hpc, hsh, -⟩ := generateOutputs_ok_spec F base hp calls puts hd hh h
  subst hpc
  exact ⟨rfl, fun k => rfl, hsh⟩

/-- Witness for C10 at the concrete 1×1 grid of `baseC3`, `hpC3`: the single
pair of rows carries the shock pair (−0.1, −10) of the single cell. -/
theorem generateOutputs_rows_aligned_witness :
    generateOutputsForDatabase F0 baseC3 hpC3 = Except.ok (wRows, wRows) ∧
    wRows.map shockPair = wHd.vols.flatMap (fun vol => wHd.spot_prices.map (fun spot =>
      (vol - baseC3.volatility, spot - baseC3.stock_price))) := by
  have hOut : generateOutputsForDatabase F0 baseC3 hpC3 = Except.ok (wRows, wRows) := by
    norm_num [generateOutputsForDatabase, generateHeatmap, generateHeatmapCount,
      npLinspace, priceGridCount, priceRowCount, mkOptionInputs, calculate, d1, d2,
      F0, baseC3, hpC3, round4, round_eq, List.enum, wRows]
  have hHd : generateHeatmap F0 baseC3 hpC3 = Except.ok wHd := by
    norm_num [generateHeatmap, generateHeatmapCount, npLinspace, priceGridCount,
      priceRowCount, mkOptionInputs, calculate, d1, d2, F0, baseC3, hpC3, wHd,
      round4, round_eq]
  exact ⟨hOut, (generateOutputs_rows_aligned F0 baseC3 hpC3 wRows wRows wHd
    hHd hOut).2.2⟩
